import Mathlib

/-!
Shallow embedding of the SOLPRISM commit-reveal program
(`src/programs/axiom/src/lib.rs`, Anchor module `axiom`).

Agents register a profile, commit SHA-256 hashes of reasoning traces, and
later reveal a storage URI for each commitment.  The ledger (Solana runtime)
persists two account types, `AgentProfile` and `ReasoningCommitment`, at
program-derived addresses (PDAs), and executes each instruction atomically:
a call either applies all of its writes or none.

Modelling choices:
* public keys are natural numbers; byte strings (`String`, `[u8; 32]`) are
  lists of bytes, so Rust's `len()` is `List.length`;
* `u64` counters are naturals kept below `2 ^ 64`; `u64::checked_add` is
  modelled explicitly;
* PDAs are modelled injectively by their derivation components: the seeds
  `[b"agent", authority]` become `Address.agentPda authority`, and
  `[b"commitment", agent_profile, nonce_le]` become
  `Address.commitmentPda agent nonce`;
* the ledger state is a pair of association lists (address to account) plus
  the list of emitted events; Anchor's account-constraint checks (`init`,
  `has_one`, the `AgentMismatch` constraint) run before the instruction
  body, exactly as the runtime performs them;
* each instruction returns `Except TxError Ledger`; on an error the
  transaction leaves the ledger unchanged (atomicity, provided by the
  runtime and assumed by the spec).
-/

set_option maxRecDepth 8000

namespace Solprism

/-- External identity: the public key of the wallet that signs a call. -/
abbrev Pubkey := Nat

/-- Byte strings (`String` contents, hash bytes): lists of bytes.
Rust `s.len()` is byte length, here `List.length`. -/
abbrev Bytes := List Nat

/-- Largest value representable in a `u64` counter. -/
def u64Max : Nat := 2 ^ 64 - 1

/-- Rust `u64::checked_add` on in-range naturals: `none` exactly when the
mathematical sum exceeds `u64::MAX`. -/
def checkedAdd (a b : Nat) : Option Nat :=
  if a + b ≤ u64Max then some (a + b) else none

/-- Program-derived addresses.  `agentPda a` is the PDA with seeds
`[b"agent", a]` (source `RegisterAgent`); `commitmentPda ag n` the PDA with
seeds `[b"commitment", ag, n.to_le_bytes()]` (source `CommitReasoning`).
Derivation is collision-free, so an address is modelled by its components. -/
inductive Address where
  | agentPda (authority : Pubkey)
  | commitmentPda (agent : Address) (nonce : Nat)
  deriving DecidableEq

/-- Source struct `AgentProfile` (one per authority). -/
structure AgentProfile where
  authority : Pubkey
  name : Bytes
  total_commitments : Nat
  total_verified : Nat
  accountability_score : Nat
  created_at : Int
  bump : Nat
  deriving DecidableEq

/-- Source struct `ReasoningCommitment` (one per `(agent, nonce)`). -/
structure ReasoningCommitment where
  agent : Address
  authority : Pubkey
  commitment_hash : Bytes
  action_type : Bytes
  confidence : Nat
  timestamp : Int
  revealed : Bool
  reasoning_uri : Bytes
  nonce : Nat
  bump : Nat
  deriving DecidableEq

/-- Source `enum AxiomError`. -/
inductive AxiomError where
  | NameTooLong
  | NameEmpty
  | ActionTypeTooLong
  | InvalidConfidence
  | UriTooLong
  | UriEmpty
  | AlreadyRevealed
  | AgentMismatch
  | Overflow
  deriving DecidableEq

/-- Errors a call can surface: a program error raised by a `require!` in the
instruction body, or an account-constraint failure raised by the runtime
before the body runs (duplicate `init`, missing account, `has_one`). -/
inductive TxError where
  | program (e : AxiomError)
  | accountAlreadyInUse
  | accountNotFound
  | hasOneViolation
  deriving DecidableEq

/-- Source events `ReasoningCommitted` and `ReasoningRevealed`. -/
inductive AxiomEvent where
  | reasoningCommitted (agent : Address) (commitment : Address)
      (action_type : Bytes) (confidence : Nat) (timestamp : Int)
  | reasoningRevealed (agent : Address) (commitment : Address)
      (reasoning_uri : Bytes) (timestamp : Int)
  deriving DecidableEq

/-- The persistent ledger state: accounts at their addresses, plus the
emitted events (newest first). -/
structure Ledger where
  profiles : List (Address × AgentProfile)
  commitments : List (Address × ReasoningCommitment)
  events : List AxiomEvent
  deriving DecidableEq

/-- The empty ledger: no account exists yet. -/
def initLedger : Ledger :=
  { profiles := [], commitments := [], events := [] }

/-- Account stored at address `a` (first matching entry). -/
def alookup {β : Type} (xs : List (Address × β)) (a : Address) : Option β :=
  match xs with
  | [] => none
  | (a', b) :: rest => if a' = a then some b else alookup rest a

/-- Overwrite the account at address `a` (first matching entry only);
identity when no entry has that address. -/
def aupd {β : Type} (xs : List (Address × β)) (a : Address) (b : β) :
    List (Address × β) :=
  match xs with
  | [] => []
  | (a', b') :: rest =>
    if a' = a then (a', b) :: rest else (a', b') :: aupd rest a b

/-- Source `register_agent` (lib.rs lines 16-33).  The runtime first performs
`init` at the agent PDA (fails when the account already exists); the body
then checks the name length bounds and initializes the profile. -/
def register_agent (l : Ledger) (authority : Pubkey) (name : Bytes)
    (now : Int) (bump : Nat) : Except TxError Ledger :=
  let addr := Address.agentPda authority
  if (alookup l.profiles addr).isSome then
    .error .accountAlreadyInUse
  else if 64 < name.length then
    .error (.program .NameTooLong)
  else if name = [] then
    .error (.program .NameEmpty)
  else
    .ok { l with
      profiles := (addr,
        { authority := authority
          name := name
          total_commitments := 0
          total_verified := 0
          accountability_score := 10000
          created_at := now
          bump := bump }) :: l.profiles }

/-- Source `commit_reasoning` (lib.rs lines 40-81).  Account resolution runs
first, in the order of the `CommitReasoning` struct: `init` of the commitment
PDA (fails when present), then the agent profile at its PDA with
`has_one = authority`.  The body checks `action_type` length and
`confidence`, writes the commitment record, increments `total_commitments`
with `checked_add`, and emits `ReasoningCommitted`. -/
def commit_reasoning (l : Ledger) (authority : Pubkey)
    (commitment_hash : Bytes) (action_type : Bytes) (confidence : Nat)
    (nonce : Nat) (now : Int) (bump : Nat) : Except TxError Ledger :=
  let agentAddr := Address.agentPda authority
  let caddr := Address.commitmentPda agentAddr nonce
  if (alookup l.commitments caddr).isSome then
    .error .accountAlreadyInUse
  else
    match alookup l.profiles agentAddr with
    | none => .error .accountNotFound
    | some profile =>
      if profile.authority ≠ authority then
        .error .hasOneViolation
      else if 32 < action_type.length then
        .error (.program .ActionTypeTooLong)
      else if 100 < confidence then
        .error (.program .InvalidConfidence)
      else
        match checkedAdd profile.total_commitments 1 with
        | none => .error (.program .Overflow)
        | some tc =>
          .ok { profiles :=
                  aupd l.profiles agentAddr
                    { profile with total_commitments := tc }
                commitments := (caddr,
                  { agent := agentAddr
                    authority := authority
                    commitment_hash := commitment_hash
                    action_type := action_type
                    confidence := confidence
                    timestamp := now
                    revealed := false
                    reasoning_uri := []
                    nonce := nonce
                    bump := bump }) :: l.commitments
                events :=
                  .reasoningCommitted agentAddr caddr action_type confidence
                    now :: l.events }

/-- Source `reveal_reasoning` (lib.rs lines 89-115).  Account resolution runs
first: the commitment account (caller-supplied address) with
`has_one = authority` and the constraint `commitment.agent ==
agent_profile.key()` (`AgentMismatch`), then the agent profile at its PDA
with `has_one = authority`.  The body checks the URI length bounds, then the
`revealed` flag, then sets `revealed := true`, stores the URI, increments
`total_verified` with `checked_add`, and emits `ReasoningRevealed`. -/
def reveal_reasoning (l : Ledger) (authority : Pubkey) (caddr : Address)
    (reasoning_uri : Bytes) (now : Int) : Except TxError Ledger :=
  let agentAddr := Address.agentPda authority
  match alookup l.commitments caddr with
  | none => .error .accountNotFound
  | some c =>
    if c.authority ≠ authority then
      .error .hasOneViolation
    else if c.agent ≠ agentAddr then
      .error (.program .AgentMismatch)
    else
      match alookup l.profiles agentAddr with
      | none => .error .accountNotFound
      | some profile =>
        if profile.authority ≠ authority then
          .error .hasOneViolation
        else if 256 < reasoning_uri.length then
          .error (.program .UriTooLong)
        else if reasoning_uri = [] then
          .error (.program .UriEmpty)
        else if c.revealed then
          .error (.program .AlreadyRevealed)
        else
          match checkedAdd profile.total_verified 1 with
          | none => .error (.program .Overflow)
          | some tv =>
            .ok { profiles :=
                    aupd l.profiles agentAddr
                      { profile with total_verified := tv }
                  commitments :=
                    aupd l.commitments caddr
                      { c with revealed := true
                               reasoning_uri := reasoning_uri }
                  events :=
                    .reasoningRevealed agentAddr caddr reasoning_uri now
                      :: l.events }

/-- One protocol call, with the caller-side arguments plus the values the
runtime supplies (the clock reading `now`, the PDA `bump`). -/
inductive Op where
  | register (authority : Pubkey) (name : Bytes) (now : Int) (bump : Nat)
  | commit (authority : Pubkey) (commitment_hash : Bytes)
      (action_type : Bytes) (confidence : Nat) (nonce : Nat) (now : Int)
      (bump : Nat)
  | reveal (authority : Pubkey) (caddr : Address) (reasoning_uri : Bytes)
      (now : Int)
  deriving DecidableEq

/-- Dispatch one call to its instruction. -/
def applyOp (l : Ledger) (op : Op) : Except TxError Ledger :=
  match op with
  | .register a n t b => register_agent l a n t b
  | .commit a h act cv nn t b => commit_reasoning l a h act cv nn t b
  | .reveal a c u t => reveal_reasoning l a c u t

/-- Transactional execution of one call: a failed call leaves the ledger
exactly as it was (the runtime rolls back every write of the call). -/
def stepOp (l : Ledger) (op : Op) : Ledger :=
  match applyOp l op with
  | .ok l' => l'
  | .error _ => l

/-- Execute a sequence of calls in order. -/
def runOps (l : Ledger) (ops : List Op) : Ledger :=
  match ops with
  | [] => l
  | op :: rest => runOps (stepOp l op) rest

/-- The clock reading the runtime supplies to a call. -/
def opNow : Op → Int
  | .register _ _ t _ => t
  | .commit _ _ _ _ _ t _ => t
  | .reveal _ _ _ t => t

/-- The profile record `register_agent` writes. -/
def freshProfile (authority : Pubkey) (name : Bytes) (now : Int)
    (bump : Nat) : AgentProfile :=
  { authority := authority
    name := name
    total_commitments := 0
    total_verified := 0
    accountability_score := 10000
    created_at := now
    bump := bump }

/-- The commitment record `commit_reasoning` writes. -/
def freshCommitment (authority : Pubkey) (commitment_hash : Bytes)
    (action_type : Bytes) (confidence : Nat) (nonce : Nat) (now : Int)
    (bump : Nat) : ReasoningCommitment :=
  { agent := .agentPda authority
    authority := authority
    commitment_hash := commitment_hash
    action_type := action_type
    confidence := confidence
    timestamp := now
    revealed := false
    reasoning_uri := []
    nonce := nonce
    bump := bump }

/-- Number of stored commitments owned by the profile at address `A`. -/
def commitsOf (l : Ledger) (A : Address) : Nat :=
  l.commitments.countP (fun e => decide (e.2.agent = A))

/-- Number of stored revealed commitments owned by the profile at `A`. -/
def revealsOf (l : Ledger) (A : Address) : Nat :=
  l.commitments.countP (fun e => decide (e.2.agent = A) && e.2.revealed)

/-- Inductive invariant: the two counters of every profile count exactly the
stored (revealed) commitments owned by it, and every stored commitment
points back to an existing profile. -/
def CountInv (l : Ledger) : Prop :=
  (∀ A p, alookup l.profiles A = some p →
      p.total_commitments = commitsOf l A ∧
      p.total_verified = revealsOf l A) ∧
  ∀ e ∈ l.commitments, (alookup l.profiles e.2.agent).isSome = true

/-- Invariant: account addresses are unique — each address stores at most
one record (the ledger rejects duplicate creation). -/
def KeysInv (l : Ledger) : Prop :=
  (l.profiles.map Prod.fst).Nodup ∧ (l.commitments.map Prod.fst).Nodup

/-- Invariant: stored counters never exceed the `u64` range (no silent
wraparound: increments go through `checked_add`). -/
def BoundInv (l : Ledger) : Prop :=
  ∀ A p, alookup l.profiles A = some p →
    p.total_commitments ≤ u64Max ∧ p.total_verified ≤ u64Max

/-- Clock invariant carried along a trace whose clock readings never exceed
`t`: every stored commitment was created at or before `t`, every
`ReasoningRevealed` event refers to a stored commitment, and the stored
creation timestamp of that commitment is at most the event's timestamp. -/
def ClockInv (l : Ledger) (t : Int) : Prop :=
  (∀ e ∈ l.commitments, e.2.timestamp ≤ t) ∧
  (∀ ag caddr uri tr,
    AxiomEvent.reasoningRevealed ag caddr uri tr ∈ l.events →
    ∀ c, alookup l.commitments caddr = some c → c.timestamp ≤ tr) ∧
  (∀ ag caddr uri tr,
    AxiomEvent.reasoningRevealed ag caddr uri tr ∈ l.events →
    (alookup l.commitments caddr).isSome = true)

/-- A concrete register call: authority 1 registers the name "A". -/
def demoRegister : Op := .register 1 [65] 10 255

/-- A concrete commit call: hash of 32 bytes `7`, action type "t",
confidence 87, nonce 1, at time 20. -/
def demoCommit : Op := .commit 1 (List.replicate 32 7) [116] 87 1 20 254

/-- The address of the commitment created by `demoCommit`. -/
def demoCaddr : Address := .commitmentPda (.agentPda 1) 1

/-- A concrete reveal call for `demoCommit`'s commitment, with a two-byte
URI, at time 30. -/
def demoReveal : Op := .reveal 1 demoCaddr [105, 112] 30

/-- Register, commit, reveal — a complete happy-path trace. -/
def demoOps : List Op := [demoRegister, demoCommit, demoReveal]

/-- The state after `demoOps`. -/
def demoLedger : Ledger := runOps initLedger demoOps

/-- The state after register and commit only. -/
def demoMid : Ledger := runOps initLedger [demoRegister, demoCommit]

/-- The profile stored for authority 1 in `demoLedger`. -/
def demoProfile : AgentProfile :=
  { authority := 1
    name := [65]
    total_commitments := 1
    total_verified := 1
    accountability_score := 10000
    created_at := 10
    bump := 255 }

/-- The commitment stored at `demoCaddr` in `demoMid` (not yet revealed). -/
def demoUnrevealed : ReasoningCommitment :=
  { agent := .agentPda 1
    authority := 1
    commitment_hash := List.replicate 32 7
    action_type := [116]
    confidence := 87
    timestamp := 20
    revealed := false
    reasoning_uri := []
    nonce := 1
    bump := 254 }

/-- The commitment stored at `demoCaddr` in `demoLedger` (revealed). -/
def demoRevealed : ReasoningCommitment :=
  { demoUnrevealed with revealed := true, reasoning_uri := [105, 112] }

/-- The profile stored for authority 1 in `demoMid` (one commit, no reveal
yet). -/
def demoProfileMid : AgentProfile :=
  { authority := 1
    name := [65]
    total_commitments := 1
    total_verified := 0
    accountability_score := 10000
    created_at := 10
    bump := 255 }

/-- A profile whose commitment counter sits at the `u64` maximum. -/
def demoMaxProfile : AgentProfile :=
  { authority := 9
    name := [66]
    total_commitments := u64Max
    total_verified := 0
    accountability_score := 10000
    created_at := 0
    bump := 0 }

/-- A ledger holding `demoMaxProfile`, used to exhibit the `Overflow`
error. -/
def demoMaxLedger : Ledger :=
  { profiles := [(Address.agentPda 9, demoMaxProfile)]
    commitments := []
    events := [] }

instance {ε α : Type} [DecidableEq ε] [DecidableEq α] :
    DecidableEq (Except ε α) := fun x y =>
  match x, y with
  | .ok a, .ok b =>
    match decEq a b with
    | isTrue h => isTrue (h ▸ rfl)
    | isFalse h => isFalse fun hc => h (by cases hc; rfl)
  | .error e, .error f =>
    match decEq e f with
    | isTrue h => isTrue (h ▸ rfl)
    | isFalse h => isFalse fun hc => h (by cases hc; rfl)
  | .ok _, .error _ => isFalse fun hc => Except.noConfusion hc
  | .error _, .ok _ => isFalse fun hc => Except.noConfusion hc

/-! ### Association-list lemmas -/

theorem alookup_nil {β : Type} (a : Address) :
    alookup ([] : List (Address × β)) a = none := rfl

theorem alookup_cons {β : Type} (a' : Address) (b : β)
    (xs : List (Address × β)) (a : Address) :
    alookup ((a', b) :: xs) a = if a' = a then some b else alookup xs a := rfl

theorem aupd_of_lookup_none {β : Type} (xs : List (Address × β)) (a : Address)
    (b : β) (h : alookup xs a = none) : aupd xs a b = xs := by
  induction xs with
  | nil => rfl
  | cons hd tl ih =>
    obtain ⟨a0, b0⟩ := hd
    by_cases hc : a0 = a
    · simp [alookup, hc] at h
    · simp only [alookup, if_neg hc] at h
      simp [aupd, hc, ih h]

theorem alookup_aupd_eq {β : Type} (xs : List (Address × β)) (a : Address)
    (b w : β) (h : alookup xs a = some w) :
    alookup (aupd xs a b) a = some b := by
  induction xs with
  | nil => simp [alookup] at h
  | cons hd tl ih =>
    obtain ⟨a0, b0⟩ := hd
    by_cases hc : a0 = a
    · simp [aupd, alookup, hc]
    · simp only [alookup, if_neg hc] at h
      simp [aupd, alookup, hc, ih h]

theorem alookup_aupd_ne {β : Type} (xs : List (Address × β)) (a a' : Address)
    (b : β) (h : a ≠ a') : alookup (aupd xs a b) a' = alookup xs a' := by
  induction xs with
  | nil => rfl
  | cons hd tl ih =>
    obtain ⟨a0, b0⟩ := hd
    by_cases hc : a0 = a
    · subst hc
      simp [aupd, alookup, h]
    · simp [aupd, alookup, hc, ih]

theorem alookup_aupd_isSome {β : Type} (xs : List (Address × β))
    (a a' : Address) (b : β) :
    (alookup (aupd xs a b) a').isSome = (alookup xs a').isSome := by
  by_cases hc : a = a'
  · subst hc
    cases hx : alookup xs a with
    | none => rw [aupd_of_lookup_none xs a b hx, hx]
    | some w => simp [alookup_aupd_eq xs a b w hx, hx]
  · rw [alookup_aupd_ne xs a a' b hc]

theorem mem_aupd {β : Type} (xs : List (Address × β)) (a : Address) (b : β)
    (e : Address × β) (h : e ∈ aupd xs a b) : e ∈ xs ∨ e = (a, b) := by
  induction xs with
  | nil => simp [aupd] at h
  | cons hd tl ih =>
    obtain ⟨a0, b0⟩ := hd
    by_cases hc : a0 = a
    · subst hc
      simp only [aupd, if_true, eq_self_iff_true, List.mem_cons] at h
      rcases h with h1 | h1
      · exact Or.inr h1
      · exact Or.inl (List.mem_cons_of_mem _ h1)
    · simp only [aupd, if_neg hc, List.mem_cons] at h
      rcases h with h1 | h1
      · exact Or.inl (by simp [h1])
      · rcases ih h1 with h2 | h2
        · exact Or.inl (List.mem_cons_of_mem _ h2)
        · exact Or.inr h2

theorem countP_aupd {β : Type} (p : Address × β → Bool)
    (xs : List (Address × β)) (a : Address) (b w : β)
    (h : alookup xs a = some w) :
    (aupd xs a b).countP p + (if p (a, w) then 1 else 0)
      = xs.countP p + (if p (a, b) then 1 else 0) := by
  induction xs with
  | nil => simp [alookup] at h
  | cons hd tl ih =>
    obtain ⟨a0, b0⟩ := hd
    by_cases hc : a0 = a
    · subst hc
      simp only [alookup, if_true, eq_self_iff_true, Option.some.injEq] at h
      subst h
      simp only [aupd, if_true, eq_self_iff_true, List.countP_cons]
      omega
    · simp only [alookup, if_neg hc] at h
      have := ih h
      simp only [aupd, if_neg hc, List.countP_cons]
      omega

theorem countP_aupd_num {β : Type} (p : Address × β → Bool)
    (xs : List (Address × β)) (a : Address) (b w : β)
    (h : alookup xs a = some w) (x y : Nat)
    (hw : (if p (a, w) then 1 else 0) = x)
    (hb : (if p (a, b) then 1 else 0) = y) :
    (aupd xs a b).countP p + x = xs.countP p + y := by
  rw [← hw, ← hb]
  exact countP_aupd p xs a b w h

/-! ### Success characterizations of the three instructions

For each instruction, one lemma inverts a successful call into its
preconditions and the exact output ledger, and one lemma shows the call
succeeds under the preconditions. -/

theorem register_agent_ok (l : Ledger) (authority : Pubkey) (name : Bytes)
    (now : Int) (bump : Nat) (l' : Ledger)
    (h : register_agent l authority name now bump = .ok l') :
    alookup l.profiles (.agentPda authority) = none ∧
    name.length ≤ 64 ∧ name ≠ [] ∧
    l' = { l with profiles := (Address.agentPda authority,
             freshProfile authority name now bump) :: l.profiles } := by
  simp only [register_agent] at h
  split at h
  · exact absurd h (fun hc => Except.noConfusion hc)
  · split at h
    · exact absurd h (fun hc => Except.noConfusion hc)
    · split at h
      · exact absurd h (fun hc => Except.noConfusion hc)
      · rename_i h1 h2 h3
        injection h with h4
        refine ⟨?_, by omega, h3, h4.symm⟩
        cases hx : alookup l.profiles (.agentPda authority) with
        | none => rfl
        | some p => rw [hx] at h1; exact absurd rfl h1

theorem register_agent_succeeds (l : Ledger) (authority : Pubkey)
    (name : Bytes) (now : Int) (bump : Nat)
    (hfresh : alookup l.profiles (.agentPda authority) = none)
    (hlen : name.length ≤ 64) (hne : name ≠ []) :
    register_agent l authority name now bump = .ok
      { l with profiles := (Address.agentPda authority,
          freshProfile authority name now bump) :: l.profiles } := by
  simp [register_agent, hfresh, hne, freshProfile,
    show ¬ 64 < name.length from by omega]

theorem commit_reasoning_ok (l : Ledger) (authority : Pubkey)
    (hsh act : Bytes) (cv nn : Nat) (now : Int) (bump : Nat) (l' : Ledger)
    (h : commit_reasoning l authority hsh act cv nn now bump = .ok l') :
    ∃ profile,
      alookup l.commitments (.commitmentPda (.agentPda authority) nn)
        = none ∧
      alookup l.profiles (.agentPda authority) = some profile ∧
      profile.authority = authority ∧ act.length ≤ 32 ∧ cv ≤ 100 ∧
      profile.total_commitments + 1 ≤ u64Max ∧
      l' = { profiles := aupd l.profiles (.agentPda authority)
               { profile with
                   total_commitments := profile.total_commitments + 1 }
             commitments := (Address.commitmentPda (.agentPda authority) nn,
               freshCommitment authority hsh act cv nn now bump)
               :: l.commitments
             events := .reasoningCommitted (.agentPda authority)
               (.commitmentPda (.agentPda authority) nn) act cv now
               :: l.events } := by
  simp only [commit_reasoning] at h
  split at h
  · exact absurd h (fun hc => Except.noConfusion hc)
  · rename_i h1
    split at h
    · exact absurd h (fun hc => Except.noConfusion hc)
    · rename_i profile hp
      split at h
      · exact absurd h (fun hc => Except.noConfusion hc)
      · split at h
        · exact absurd h (fun hc => Except.noConfusion hc)
        · split at h
          · exact absurd h (fun hc => Except.noConfusion hc)
          · rename_i h2 h3 h4
            split at h
            · exact absurd h (fun hc => Except.noConfusion hc)
            · rename_i tc hadd
              simp only [checkedAdd] at hadd
              split at hadd
              · rename_i h5
                injection hadd with h6
                injection h with h7
                refine ⟨profile, ?_, hp, by tauto, by omega, by omega,
                  by omega, ?_⟩
                · cases hx : alookup l.commitments
                      (.commitmentPda (.agentPda authority) nn) with
                  | none => rfl
                  | some c => rw [hx] at h1; exact absurd rfl h1
                · rw [← h7, ← h6]
                  rfl
              · exact absurd hadd (fun hc => Option.noConfusion hc)

theorem commit_reasoning_succeeds (l : Ledger) (authority : Pubkey)
    (hsh act : Bytes) (cv nn : Nat) (now : Int) (bump : Nat)
    (profile : AgentProfile)
    (hfresh : alookup l.commitments
      (.commitmentPda (.agentPda authority) nn) = none)
    (hp : alookup l.profiles (.agentPda authority) = some profile)
    (hpauth : profile.authority = authority)
    (hact : act.length ≤ 32) (hcv : cv ≤ 100)
    (hof : profile.total_commitments + 1 ≤ u64Max) :
    commit_reasoning l authority hsh act cv nn now bump = .ok
      { profiles := aupd l.profiles (.agentPda authority)
          { profile with total_commitments := profile.total_commitments + 1 }
        commitments := (Address.commitmentPda (.agentPda authority) nn,
          freshCommitment authority hsh act cv nn now bump) :: l.commitments
        events := .reasoningCommitted (.agentPda authority)
          (.commitmentPda (.agentPda authority) nn) act cv now
          :: l.events } := by
  simp [commit_reasoning, hfresh, hp, hpauth, hof, checkedAdd,
    freshCommitment, show ¬ 32 < act.length from by omega,
    show ¬ 100 < cv from by omega]

theorem reveal_reasoning_ok (l : Ledger) (authority : Pubkey)
    (caddr : Address) (uri : Bytes) (now : Int) (l' : Ledger)
    (h : reveal_reasoning l authority caddr uri now = .ok l') :
    ∃ c profile,
      alookup l.commitments caddr = some c ∧
      c.authority = authority ∧ c.agent = .agentPda authority ∧
      alookup l.profiles (.agentPda authority) = some profile ∧
      profile.authority = authority ∧
      uri.length ≤ 256 ∧ uri ≠ [] ∧ c.revealed = false ∧
      profile.total_verified + 1 ≤ u64Max ∧
      l' = { profiles := aupd l.profiles (.agentPda authority)
               { profile with total_verified := profile.total_verified + 1 }
             commitments := aupd l.commitments caddr
               { c with revealed := true, reasoning_uri := uri }
             events := .reasoningRevealed (.agentPda authority) caddr uri now
               :: l.events } := by
  simp only [reveal_reasoning] at h
  split at h
  · exact absurd h (fun hc => Except.noConfusion hc)
  · rename_i c hc
    split at h
    · exact absurd h (fun hc => Except.noConfusion hc)
    · split at h
      · exact absurd h (fun hc => Except.noConfusion hc)
      · split at h
        · exact absurd h (fun hc => Except.noConfusion hc)
        · rename_i h1 h2 profile hp
          split at h
          · exact absurd h (fun hc => Except.noConfusion hc)
          · split at h
            · exact absurd h (fun hc => Except.noConfusion hc)
            · split at h
              · exact absurd h (fun hc => Except.noConfusion hc)
              · split at h
                · exact absurd h (fun hc => Except.noConfusion hc)
                · rename_i h3 h4 h5 h6
                  split at h
                  · exact absurd h (fun hc => Except.noConfusion hc)
                  · rename_i tv hadd
                    simp only [checkedAdd] at hadd
                    split at hadd
                    · rename_i h7
                      injection hadd with h8
                      injection h with h9
                      refine ⟨c, profile, hc, by tauto, by tauto, hp,
                        by tauto, by omega, by tauto,
                        by cases hb : c.revealed with
                           | false => rfl
                           | true => rw [hb] at h6; exact absurd rfl h6,
                        by omega, ?_⟩
                      rw [← h9, ← h8]
                    · exact absurd hadd (fun hc => Option.noConfusion hc)

theorem reveal_reasoning_succeeds (l : Ledger) (authority : Pubkey)
    (caddr : Address) (uri : Bytes) (now : Int) (c : ReasoningCommitment)
    (profile : AgentProfile)
    (hc : alookup l.commitments caddr = some c)
    (hauth : c.authority = authority)
    (hagent : c.agent = .agentPda authority)
    (hp : alookup l.profiles (.agentPda authority) = some profile)
    (hpauth : profile.authority = authority)
    (hlen : uri.length ≤ 256) (hne : uri ≠ []) (hrev : c.revealed = false)
    (hof : profile.total_verified + 1 ≤ u64Max) :
    reveal_reasoning l authority caddr uri now = .ok
      { profiles := aupd l.profiles (.agentPda authority)
          { profile with total_verified := profile.total_verified + 1 }
        commitments := aupd l.commitments caddr
          { c with revealed := true, reasoning_uri := uri }
        events := .reasoningRevealed (.agentPda authority) caddr uri now
          :: l.events } := by
  simp [reveal_reasoning, hc, hauth, hagent, hp, hpauth, hne, hrev, hof,
    checkedAdd, show ¬ 256 < uri.length from by omega]

/-! ### The counter invariant

`total_commitments` of a profile equals the number of stored commitments
whose `agent` field is the profile's address, and `total_verified` the
number of those that are revealed.  Both equalities are preserved by every
call, and together they give `total_verified ≤ total_commitments`. -/

theorem revealsOf_le_commitsOf (l : Ledger) (A : Address) :
    revealsOf l A ≤ commitsOf l A := by
  refine List.countP_mono_left fun e _ hb => ?_
  simp only [Bool.and_eq_true] at hb
  exact hb.1

theorem countInv_init : CountInv initLedger := by
  constructor
  · intro A p hp
    simp [alookup, initLedger] at hp
  · intro e he
    simp [initLedger] at he

theorem countInv_step (l : Ledger) (op : Op) (h : CountInv l) :
    CountInv (stepOp l op) := by
  obtain ⟨hcnt, hdom⟩ := h
  unfold stepOp
  cases hap : applyOp l op with
  | error e => exact ⟨hcnt, hdom⟩
  | ok l' =>
    cases op with
    | register a n t b =>
      obtain ⟨hfresh, -, -, hl'⟩ := register_agent_ok l a n t b l' hap
      subst hl'
      constructor
      · intro A p hp
        rw [alookup_cons] at hp
        by_cases hA : Address.agentPda a = A
        · rw [if_pos hA] at hp
          injection hp with hp
          subst hp
          have hz : ∀ e ∈ l.commitments,
              ¬(decide (e.2.agent = A) = true) := by
            intro e he hag
            have hi := hdom e he
            rw [of_decide_eq_true hag, ← hA, hfresh] at hi
            exact Bool.noConfusion hi
          constructor
          · exact (List.countP_eq_zero.mpr hz).symm
          · refine (List.countP_eq_zero.mpr ?_).symm
            intro e he hb
            simp only [Bool.and_eq_true] at hb
            exact hz e he hb.1
        · rw [if_neg hA] at hp
          exact hcnt A p hp
      · intro e he
        rw [alookup_cons]
        by_cases hA : Address.agentPda a = e.2.agent
        · rw [if_pos hA]; rfl
        · rw [if_neg hA]; exact hdom e he
    | commit a hsh act cv nn t b =>
      obtain ⟨profile, hfresh, hp, hpauth, -, -, hof, hl'⟩ :=
        commit_reasoning_ok l a hsh act cv nn t b l' hap
      subst hl'
      constructor
      · intro A q hq
        by_cases hA : Address.agentPda a = A
        · subst hA
          rw [alookup_aupd_eq _ _ _ profile hp] at hq
          injection hq with hq
          subst hq
          obtain ⟨h1, h2⟩ := hcnt _ profile hp
          constructor
          · show profile.total_commitments + 1 = _
            simp only [commitsOf, List.countP_cons, freshCommitment]
            simp [h1, commitsOf]
          · show profile.total_verified = _
            simp only [revealsOf, List.countP_cons, freshCommitment]
            simp [h2, revealsOf]
        · rw [alookup_aupd_ne _ _ _ _ hA] at hq
          obtain ⟨h1, h2⟩ := hcnt A q hq
          constructor
          · simp only [commitsOf, List.countP_cons, freshCommitment]
            simp [h1, commitsOf, hA]
          · simp only [revealsOf, List.countP_cons, freshCommitment]
            simp [h2, revealsOf, hA]
      · intro e he
        rw [List.mem_cons] at he
        rcases he with he | he
        · subst he
          show (alookup _ (Address.agentPda a)).isSome = true
          rw [alookup_aupd_isSome, hp]
          rfl
        · rw [alookup_aupd_isSome]
          exact hdom e he
    | reveal a caddr uri t =>
      obtain ⟨c, profile, hc, hcauth, hcagent, hp, hpauth, -, -, hrev, hof,
        hl'⟩ := reveal_reasoning_ok l a caddr uri t l' hap
      subst hl'
      constructor
      · intro A q hq
        by_cases hA : Address.agentPda a = A
        · subst hA
          rw [alookup_aupd_eq _ _ _ profile hp] at hq
          injection hq with hq
          subst hq
          obtain ⟨h1, h2⟩ := hcnt _ profile hp
          constructor
          · show profile.total_commitments = _
            have hcm := countP_aupd_num
              (fun e => decide (e.2.agent = Address.agentPda a))
              l.commitments caddr
              { c with revealed := true, reasoning_uri := uri } c hc 1 1
              (by simp [hcagent]) (by simp [hcagent])
            simp only [commitsOf] at h1 ⊢
            omega
          · show profile.total_verified + 1 = _
            have hrv := countP_aupd_num
              (fun e => decide (e.2.agent = Address.agentPda a)
                && e.2.revealed)
              l.commitments caddr
              { c with revealed := true, reasoning_uri := uri } c hc 0 1
              (by simp [hrev]) (by simp [hcagent])
            simp only [revealsOf] at h2 ⊢
            omega
        · rw [alookup_aupd_ne _ _ _ _ hA] at hq
          obtain ⟨h1, h2⟩ := hcnt A q hq
          have hne : ¬(c.agent = A) := by rw [hcagent]; exact hA
          constructor
          · have hcm := countP_aupd_num
              (fun e => decide (e.2.agent = A)) l.commitments caddr
              { c with revealed := true, reasoning_uri := uri } c hc 0 0
              (by simp [hne]) (by simp [hne])
            simp only [commitsOf] at h1 ⊢
            omega
          · have hrv := countP_aupd_num
              (fun e => decide (e.2.agent = A) && e.2.revealed)
              l.commitments caddr
              { c with revealed := true, reasoning_uri := uri } c hc 0 0
              (by simp [hne]) (by simp [hne])
            simp only [revealsOf] at h2 ⊢
            omega
      · intro e he
        rcases mem_aupd _ _ _ e he with he' | he'
        · rw [alookup_aupd_isSome]
          exact hdom e he'
        · subst he'
          show (alookup _ c.agent).isSome = true
          rw [alookup_aupd_isSome, hcagent, hp]
          rfl

theorem countInv_runOps (ops : List Op) (l : Ledger) (h : CountInv l) :
    CountInv (runOps l ops) := by
  induction ops generalizing l with
  | nil => exact h
  | cons op rest ih => exact ih (stepOp l op) (countInv_step l op h)

/-! ### Key uniqueness and counter bounds -/

theorem keys_aupd {β : Type} (xs : List (Address × β)) (a : Address)
    (b : β) : (aupd xs a b).map Prod.fst = xs.map Prod.fst := by
  induction xs with
  | nil => rfl
  | cons hd tl ih =>
    obtain ⟨a0, b0⟩ := hd
    by_cases hc : a0 = a
    · simp [aupd, hc]
    · simp [aupd, hc, ih]

theorem alookup_none_not_mem {β : Type} (xs : List (Address × β))
    (a : Address) (h : alookup xs a = none) : a ∉ xs.map Prod.fst := by
  induction xs with
  | nil => simp
  | cons hd tl ih =>
    obtain ⟨a0, b0⟩ := hd
    by_cases hc : a0 = a
    · simp [alookup, hc] at h
    · simp only [alookup, if_neg hc] at h
      simp only [List.map_cons, List.mem_cons]
      rintro (h1 | h1)
      · exact hc h1.symm
      · exact ih h h1

theorem alookup_some_mem {β : Type} (xs : List (Address × β)) (a : Address)
    (b : β) (h : alookup xs a = some b) : (a, b) ∈ xs := by
  induction xs with
  | nil => simp [alookup] at h
  | cons hd tl ih =>
    obtain ⟨a0, b0⟩ := hd
    by_cases hc : a0 = a
    · subst hc
      simp [alookup] at h
      subst h
      exact List.mem_cons_self _ _
    · simp only [alookup, if_neg hc] at h
      exact List.mem_cons_of_mem _ (ih h)

theorem keysInv_step (l : Ledger) (op : Op) (h : KeysInv l) :
    KeysInv (stepOp l op) := by
  obtain ⟨hpk, hck⟩ := h
  unfold stepOp
  cases hap : applyOp l op with
  | error e => exact ⟨hpk, hck⟩
  | ok l' =>
    cases op with
    | register a n t b =>
      obtain ⟨hfresh, -, -, hl'⟩ := register_agent_ok l a n t b l' hap
      subst hl'
      exact ⟨List.nodup_cons.mpr ⟨alookup_none_not_mem _ _ hfresh, hpk⟩,
        hck⟩
    | commit a hsh act cv nn t b =>
      obtain ⟨profile, hfresh, hp, -, -, -, -, hl'⟩ :=
        commit_reasoning_ok l a hsh act cv nn t b l' hap
      subst hl'
      constructor
      · show ((aupd _ _ _).map Prod.fst).Nodup
        rw [keys_aupd]
        exact hpk
      · exact List.nodup_cons.mpr ⟨alookup_none_not_mem _ _ hfresh, hck⟩
    | reveal a caddr uri t =>
      obtain ⟨c, profile, hc, -, -, hp, -, -, -, hrev, -, hl'⟩ :=
        reveal_reasoning_ok l a caddr uri t l' hap
      subst hl'
      constructor
      · show ((aupd _ _ _).map Prod.fst).Nodup
        rw [keys_aupd]
        exact hpk
      · show ((aupd _ _ _).map Prod.fst).Nodup
        rw [keys_aupd]
        exact hck

theorem keysInv_runOps (ops : List Op) (l : Ledger) (h : KeysInv l) :
    KeysInv (runOps l ops) := by
  induction ops generalizing l with
  | nil => exact h
  | cons op rest ih => exact ih (stepOp l op) (keysInv_step l op h)

theorem boundInv_step (l : Ledger) (op : Op) (h : BoundInv l) :
    BoundInv (stepOp l op) := by
  unfold stepOp
  cases hap : applyOp l op with
  | error e => exact h
  | ok l' =>
    cases op with
    | register a n t b =>
      obtain ⟨hfresh, -, -, hl'⟩ := register_agent_ok l a n t b l' hap
      subst hl'
      intro A p hp
      rw [alookup_cons] at hp
      by_cases hA : Address.agentPda a = A
      · rw [if_pos hA] at hp
        injection hp with hp
        subst hp
        exact ⟨Nat.zero_le _, Nat.zero_le _⟩
      · rw [if_neg hA] at hp
        exact h A p hp
    | commit a hsh act cv nn t b =>
      obtain ⟨profile, hfresh, hp, -, -, -, hof, hl'⟩ :=
        commit_reasoning_ok l a hsh act cv nn t b l' hap
      subst hl'
      intro A q hq
      by_cases hA : Address.agentPda a = A
      · subst hA
        rw [alookup_aupd_eq _ _ _ profile hp] at hq
        injection hq with hq
        subst hq
        exact ⟨hof, (h _ profile hp).2⟩
      · rw [alookup_aupd_ne _ _ _ _ hA] at hq
        exact h A q hq
    | reveal a caddr uri t =>
      obtain ⟨c, profile, hc, -, -, hp, -, -, -, hrev, hof, hl'⟩ :=
        reveal_reasoning_ok l a caddr uri t l' hap
      subst hl'
      intro A q hq
      by_cases hA : Address.agentPda a = A
      · subst hA
        rw [alookup_aupd_eq _ _ _ profile hp] at hq
        injection hq with hq
        subst hq
        exact ⟨(h _ profile hp).1, hof⟩
      · rw [alookup_aupd_ne _ _ _ _ hA] at hq
        exact h A q hq

theorem boundInv_runOps (ops : List Op) (l : Ledger) (h : BoundInv l) :
    BoundInv (runOps l ops) := by
  induction ops generalizing l with
  | nil => exact h
  | cons op rest ih => exact ih (stepOp l op) (boundInv_step l op h)

/-! ### The clock invariant -/

theorem clockInv_init (t : Int) : ClockInv initLedger t := by
  refine ⟨?_, ?_, ?_⟩
  · intro e he
    simp [initLedger] at he
  · intro ag caddr uri tr hev
    simp [initLedger] at hev
  · intro ag caddr uri tr hev
    simp [initLedger] at hev

theorem clockInv_step (l : Ledger) (op : Op) (t : Int) (h : ClockInv l t)
    (hle : t ≤ opNow op) : ClockInv (stepOp l op) (opNow op) := by
  obtain ⟨h1, h2, h3⟩ := h
  unfold stepOp
  cases hap : applyOp l op with
  | error e => exact ⟨fun e he => le_trans (h1 e he) hle, h2, h3⟩
  | ok l' =>
    cases op with
    | register a n t2 b =>
      obtain ⟨-, -, -, hl'⟩ := register_agent_ok l a n t2 b l' hap
      subst hl'
      exact ⟨fun e he => le_trans (h1 e he) hle, h2, h3⟩
    | commit a hsh act cv nn t2 b =>
      obtain ⟨profile, hfresh, hp, -, -, -, -, hl'⟩ :=
        commit_reasoning_ok l a hsh act cv nn t2 b l' hap
      subst hl'
      refine ⟨?_, ?_, ?_⟩
      · intro e he
        rcases List.mem_cons.mp he with he | he
        · subst he
          exact le_refl _
        · exact le_trans (h1 e he) hle
      · intro ag caddr uri tr hev c hcl
        rcases List.mem_cons.mp hev with hev | hev
        · exact absurd hev (fun hc => AxiomEvent.noConfusion hc)
        · rw [alookup_cons] at hcl
          by_cases hA : Address.commitmentPda (.agentPda a) nn = caddr
          · exfalso
            have hs := h3 ag caddr uri tr hev
            rw [← hA, hfresh] at hs
            exact Bool.noConfusion hs
          · rw [if_neg hA] at hcl
            exact h2 ag caddr uri tr hev c hcl
      · intro ag caddr uri tr hev
        rcases List.mem_cons.mp hev with hev | hev
        · exact absurd hev (fun hc => AxiomEvent.noConfusion hc)
        · rw [alookup_cons]
          by_cases hA : Address.commitmentPda (.agentPda a) nn = caddr
          · rw [if_pos hA]
            rfl
          · rw [if_neg hA]
            exact h3 ag caddr uri tr hev
    | reveal a caddr uri t2 =>
      obtain ⟨c, profile, hc, -, hcagent, hp, -, -, -, hrev, -, hl'⟩ :=
        reveal_reasoning_ok l a caddr uri t2 l' hap
      subst hl'
      refine ⟨?_, ?_, ?_⟩
      · intro e he
        rcases mem_aupd _ _ _ e he with he | he
        · exact le_trans (h1 e he) hle
        · subst he
          have := h1 (caddr, c) (alookup_some_mem _ _ _ hc)
          exact le_trans this hle
      · intro ag caddr' uri' tr hev c' hcl
        rcases List.mem_cons.mp hev with hev | hev
        · cases hev
          rw [alookup_aupd_eq _ _ _ c hc] at hcl
          injection hcl with hcl
          subst hcl
          have := h1 (caddr, c) (alookup_some_mem _ _ _ hc)
          exact le_trans this hle
        · by_cases hA : caddr = caddr'
          · subst hA
            rw [alookup_aupd_eq _ _ _ c hc] at hcl
            injection hcl with hcl
            subst hcl
            exact h2 ag caddr uri' tr hev c hc
          · rw [alookup_aupd_ne _ _ _ _ hA] at hcl
            exact h2 ag caddr' uri' tr hev c' hcl
      · intro ag caddr' uri' tr hev
        rcases List.mem_cons.mp hev with hev | hev
        · cases hev
          rw [alookup_aupd_eq _ _ _ c hc]
          rfl
        · by_cases hA : caddr = caddr'
          · subst hA
            rw [alookup_aupd_eq _ _ _ c hc]
            rfl
          · rw [alookup_aupd_ne _ _ _ _ hA]
            exact h3 ag caddr' uri' tr hev

theorem clockInv_runOps (ops : List Op) (l : Ledger) (t : Int)
    (h : ClockInv l t) (hlb : ∀ op ∈ ops, t ≤ opNow op)
    (hmono : List.Pairwise (fun o1 o2 => opNow o1 ≤ opNow o2) ops) :
    ∃ t', ClockInv (runOps l ops) t' := by
  induction ops generalizing l t with
  | nil => exact ⟨t, h⟩
  | cons op rest ih =>
    have hstep := clockInv_step l op t h (hlb op (List.mem_cons_self _ _))
    obtain ⟨hhead, htail⟩ := List.pairwise_cons.mp hmono
    exact ih (stepOp l op) (opNow op) hstep hhead htail

theorem keysInv_init : KeysInv initLedger :=
  ⟨by simp [initLedger], by simp [initLedger]⟩

theorem boundInv_init : BoundInv initLedger := by
  intro A p hp
  simp [initLedger, alookup] at hp

/-! ### Lifecycle of the `revealed` flag -/

/-- A stored commitment whose `revealed` flag is set is never changed (nor
removed) by any successful call. -/
theorem revealed_commitment_frozen (l l' : Ledger) (op : Op)
    (caddr : Address) (c : ReasoningCommitment)
    (hok : applyOp l op = .ok l')
    (hc : alookup l.commitments caddr = some c)
    (hrev : c.revealed = true) :
    alookup l'.commitments caddr = some c := by
  cases op with
  | register a n t b =>
    obtain ⟨-, -, -, hl'⟩ := register_agent_ok l a n t b l' hok
    subst hl'
    exact hc
  | commit a hsh act cv nn t b =>
    obtain ⟨profile, hfresh, -, -, -, -, -, hl'⟩ :=
      commit_reasoning_ok l a hsh act cv nn t b l' hok
    subst hl'
    rw [alookup_cons]
    by_cases hA : Address.commitmentPda (.agentPda a) nn = caddr
    · rw [← hA] at hc
      rw [hfresh] at hc
      exact Option.noConfusion hc
    · rw [if_neg hA]
      exact hc
  | reveal a caddr' uri t =>
    obtain ⟨c2, profile, hc2, -, -, -, -, -, -, hrev2, -, hl'⟩ :=
      reveal_reasoning_ok l a caddr' uri t l' hok
    subst hl'
    by_cases hA : caddr' = caddr
    · subst hA
      rw [hc] at hc2
      injection hc2 with hc2
      rw [← hc2, hrev] at hrev2
      exact Bool.noConfusion hrev2
    · rw [alookup_aupd_ne _ _ _ _ hA]
      exact hc

/-- When a successful call changes a stored commitment, the call is a
`reveal_reasoning` of exactly that commitment: the flag goes from `false`
to `true` and only `revealed` and `reasoning_uri` change. -/
theorem commitment_change_is_reveal (l l' : Ledger) (op : Op)
    (caddr : Address) (c c' : ReasoningCommitment)
    (hok : applyOp l op = .ok l')
    (hc : alookup l.commitments caddr = some c)
    (hc' : alookup l'.commitments caddr = some c')
    (hne : c' ≠ c) :
    c.revealed = false ∧ c'.revealed = true ∧
    ∃ a uri t, op = .reveal a caddr uri t ∧
      c' = { c with revealed := true, reasoning_uri := uri } := by
  cases op with
  | register a n t b =>
    obtain ⟨-, -, -, hl'⟩ := register_agent_ok l a n t b l' hok
    subst hl'
    rw [hc] at hc'
    injection hc' with hc'
    exact absurd hc'.symm hne
  | commit a hsh act cv nn t b =>
    obtain ⟨profile, hfresh, -, -, -, -, -, hl'⟩ :=
      commit_reasoning_ok l a hsh act cv nn t b l' hok
    subst hl'
    rw [alookup_cons] at hc'
    by_cases hA : Address.commitmentPda (.agentPda a) nn = caddr
    · rw [← hA] at hc
      rw [hfresh] at hc
      exact Option.noConfusion hc
    · rw [if_neg hA] at hc'
      rw [hc] at hc'
      injection hc' with hc'
      exact absurd hc'.symm hne
  | reveal a caddr2 uri t =>
    obtain ⟨c2, profile, hc2, -, -, -, -, -, -, hrev2, -, hl'⟩ :=
      reveal_reasoning_ok l a caddr2 uri t l' hok
    subst hl'
    by_cases hA : caddr2 = caddr
    · subst hA
      have hcc : c2 = c := by
        rw [hc] at hc2
        injection hc2 with hcc
        exact hcc.symm
      subst hcc
      rw [alookup_aupd_eq _ _ _ c2 hc] at hc'
      injection hc' with hc'
      subst hc'
      exact ⟨hrev2, rfl, a, uri, t, rfl, rfl⟩
    · rw [alookup_aupd_ne _ _ _ _ hA] at hc'
      rw [hc] at hc'
      injection hc' with hc'
      exact absurd hc'.symm hne

/-- A reveal call targeting an already-revealed commitment always fails. -/
theorem reveal_on_revealed_errors (l : Ledger) (a : Pubkey)
    (caddr : Address) (uri : Bytes) (t : Int) (c : ReasoningCommitment)
    (hc : alookup l.commitments caddr = some c)
    (hrev : c.revealed = true) :
    ∃ e, reveal_reasoning l a caddr uri t = .error e := by
  cases hres : reveal_reasoning l a caddr uri t with
  | error e => exact ⟨e, rfl⟩
  | ok l' =>
    obtain ⟨c2, profile, hc2, -, -, -, -, -, -, hrev2, -, -⟩ :=
      reveal_reasoning_ok l a caddr uri t l' hres
    rw [hc] at hc2
    injection hc2 with hc2
    rw [← hc2, hrev] at hrev2
    exact Bool.noConfusion hrev2

/-- A reveal call targeting an already-revealed commitment fails with
`AlreadyRevealed` when the URI passes the length checks and the account
constraints hold. -/
theorem reveal_on_revealed_already (l : Ledger) (a : Pubkey)
    (caddr : Address) (uri : Bytes) (t : Int) (c : ReasoningCommitment)
    (p : AgentProfile)
    (hc : alookup l.commitments caddr = some c)
    (hrev : c.revealed = true)
    (hauth : c.authority = a) (hagent : c.agent = .agentPda a)
    (hp : alookup l.profiles (.agentPda a) = some p)
    (hpauth : p.authority = a)
    (hne : uri ≠ []) (hlen : uri.length ≤ 256) :
    reveal_reasoning l a caddr uri t
      = .error (.program .AlreadyRevealed) := by
  simp [reveal_reasoning, hc, hauth, hagent, hp, hpauth, hne, hrev,
    show ¬ 256 < uri.length from by omega]

/-- `accountability_score` is never changed after initialization: any
successful call preserves the score of every stored profile. -/
theorem score_preserved (m m' : Ledger) (op : Op) (B : Address)
    (q q' : AgentProfile) (hop : applyOp m op = .ok m')
    (hq : alookup m.profiles B = some q)
    (hq' : alookup m'.profiles B = some q') :
    q'.accountability_score = q.accountability_score := by
  cases op with
  | register a n t b =>
    obtain ⟨hfresh, -, -, hl'⟩ := register_agent_ok m a n t b m' hop
    subst hl'
    rw [alookup_cons] at hq'
    by_cases hA : Address.agentPda a = B
    · rw [← hA] at hq
      rw [hfresh] at hq
      exact Option.noConfusion hq
    · rw [if_neg hA] at hq'
      rw [hq] at hq'
      injection hq' with hq'
      rw [hq']
  | commit a hsh act cv nn t b =>
    obtain ⟨profile, hfresh, hp, -, -, -, -, hl'⟩ :=
      commit_reasoning_ok m a hsh act cv nn t b m' hop
    subst hl'
    by_cases hA : Address.agentPda a = B
    · rw [← hA] at hq hq'
      rw [alookup_aupd_eq _ _ _ profile hp] at hq'
      rw [hp] at hq
      injection hq with hq
      injection hq' with hq'
      rw [← hq, ← hq']
    · rw [alookup_aupd_ne _ _ _ _ hA] at hq'
      rw [hq] at hq'
      injection hq' with hq'
      rw [hq']
  | reveal a caddr uri t =>
    obtain ⟨c, profile, hc, -, -, hp, -, -, -, hrev, -, hl'⟩ :=
      reveal_reasoning_ok m a caddr uri t m' hop
    subst hl'
    by_cases hA : Address.agentPda a = B
    · rw [← hA] at hq hq'
      rw [alookup_aupd_eq _ _ _ profile hp] at hq'
      rw [hp] at hq
      injection hq with hq
      injection hq' with hq'
      rw [← hq, ← hq']
    · rw [alookup_aupd_ne _ _ _ _ hA] at hq'
      rw [hq] at hq'
      injection hq' with hq'
      rw [hq']

/-! ### The claims -/

/-- C1: in every state reachable from the empty ledger by any sequence of
`register_agent`, `commit_reasoning` and `reveal_reasoning` calls, every
stored `AgentProfile` satisfies `total_verified ≤ total_commitments`. -/
theorem c1_total_verified_le_total_commitments (ops : List Op)
    (A : Address) (p : AgentProfile)
    (hp : alookup (runOps initLedger ops).profiles A = some p) :
    p.total_verified ≤ p.total_commitments := by
  obtain ⟨h1, h2⟩ :=
    (countInv_runOps ops initLedger countInv_init).1 A p hp
  rw [h1, h2]
  exact revealsOf_le_commitsOf _ A

/-- Witness for C1: after the happy-path trace the stored profile has
`total_verified = 1 ≤ 1 = total_commitments`. -/
theorem c1_total_verified_le_total_commitments_witness :
    alookup (runOps initLedger demoOps).profiles (.agentPda 1)
      = some demoProfile ∧
    demoProfile.total_verified ≤ demoProfile.total_commitments :=
  ⟨by decide,
   c1_total_verified_le_total_commitments demoOps (.agentPda 1) demoProfile
     (by decide)⟩

/-- C3: a `reveal_reasoning` call on an unrevealed commitment with a URI of
1–256 bytes, made by the commitment's authority against the matching agent
profile, succeeds, sets `revealed := true`, stores the URI, and increments
the profile's `total_verified` by exactly 1. -/
theorem c3_reveal_reasoning_success (l : Ledger) (authority : Pubkey)
    (caddr : Address) (uri : Bytes) (now : Int) (c : ReasoningCommitment)
    (profile : AgentProfile)
    (hc : alookup l.commitments caddr = some c)
    (hrev : c.revealed = false)
    (hlen1 : 1 ≤ uri.length) (hlen2 : uri.length ≤ 256)
    (hauth : c.authority = authority)
    (hagent : c.agent = .agentPda authority)
    (hp : alookup l.profiles (.agentPda authority) = some profile)
    (hpauth : profile.authority = authority)
    (hof : profile.total_verified + 1 ≤ u64Max) :
    ∃ l', reveal_reasoning l authority caddr uri now = .ok l' ∧
      alookup l'.commitments caddr
        = some { c with revealed := true, reasoning_uri := uri } ∧
      alookup l'.profiles (.agentPda authority)
        = some { profile with
            total_verified := profile.total_verified + 1 } := by
  have hne : uri ≠ [] := by
    intro hh
    rw [hh] at hlen1
    simp at hlen1
  refine ⟨_, reveal_reasoning_succeeds l authority caddr uri now c profile
    hc hauth hagent hp hpauth hlen2 hne hrev hof, ?_, ?_⟩
  · exact alookup_aupd_eq _ _ _ c hc
  · exact alookup_aupd_eq _ _ _ profile hp

/-- Witness for C3: revealing the demo commitment from the post-commit
state succeeds with the expected record updates. -/
theorem c3_reveal_reasoning_success_witness :
    ∃ l', reveal_reasoning demoMid 1 demoCaddr [105, 112] 30 = .ok l' ∧
      alookup l'.commitments demoCaddr
        = some { demoUnrevealed with
                 revealed := true
                 reasoning_uri := [105, 112] } ∧
      alookup l'.profiles (.agentPda 1)
        = some { demoProfileMid with
            total_verified := demoProfileMid.total_verified + 1 } :=
  c3_reveal_reasoning_success demoMid 1 demoCaddr [105, 112] 30
    demoUnrevealed demoProfileMid (by decide) (by decide) (by decide)
    (by decide) (by decide) (by decide) (by decide) (by decide) (by decide)

/-- C4: a `commit_reasoning` call by the registered authority with a fresh
nonce, a confidence in `[0, 100]` and an `action_type` of at most 32 bytes
(the empty string included) succeeds and increments `total_commitments` by
exactly 1; with any confidence above 100 it fails with `InvalidConfidence`
and the ledger is unchanged. -/
theorem c4_commit_reasoning_spec (l : Ledger) (authority : Pubkey)
    (hsh act : Bytes) (cvOk cvBad nn : Nat) (now : Int) (bump : Nat)
    (profile : AgentProfile)
    (hfresh : alookup l.commitments
      (.commitmentPda (.agentPda authority) nn) = none)
    (hp : alookup l.profiles (.agentPda authority) = some profile)
    (hpauth : profile.authority = authority)
    (hact : act.length ≤ 32) (hcv : cvOk ≤ 100) (hbad : 100 < cvBad)
    (hof : profile.total_commitments + 1 ≤ u64Max) :
    (∃ l', commit_reasoning l authority hsh act cvOk nn now bump
        = .ok l' ∧
       alookup l'.profiles (.agentPda authority) = some
         { profile with
             total_commitments := profile.total_commitments + 1 } ∧
       alookup l'.commitments (.commitmentPda (.agentPda authority) nn)
         = some (freshCommitment authority hsh act cvOk nn now bump)) ∧
    commit_reasoning l authority hsh act cvBad nn now bump
      = .error (.program .InvalidConfidence) ∧
    runOps l [.commit authority hsh act cvBad nn now bump] = l := by
  have herr : commit_reasoning l authority hsh act cvBad nn now bump
      = .error (.program .InvalidConfidence) := by
    simp [commit_reasoning, hfresh, hp, hpauth, hbad,
      show ¬ 32 < act.length from by omega]
  refine ⟨⟨_, commit_reasoning_succeeds l authority hsh act cvOk nn now
    bump profile hfresh hp hpauth hact hcv hof, ?_, ?_⟩, herr, ?_⟩
  · exact alookup_aupd_eq _ _ _ profile hp
  · rw [alookup_cons, if_pos rfl]
  · simp [runOps, stepOp, applyOp, herr]

/-- Witness for C4: committing with an empty action type and confidence 100
succeeds; confidence 101 is rejected with `InvalidConfidence`. -/
theorem c4_commit_reasoning_spec_witness :
    (∃ l', commit_reasoning (runOps initLedger [demoRegister]) 1 [] []
        100 5 20 7 = .ok l' ∧
       alookup l'.profiles (.agentPda 1) = some
         { freshProfile 1 [65] 10 255 with
             total_commitments :=
               (freshProfile 1 [65] 10 255).total_commitments + 1 } ∧
       alookup l'.commitments (.commitmentPda (.agentPda 1) 5)
         = some (freshCommitment 1 [] [] 100 5 20 7)) ∧
    commit_reasoning (runOps initLedger [demoRegister]) 1 [] [] 101 5 20 7
      = .error (.program .InvalidConfidence) ∧
    runOps (runOps initLedger [demoRegister]) [.commit 1 [] [] 101 5 20 7]
      = runOps initLedger [demoRegister] :=
  c4_commit_reasoning_spec (runOps initLedger [demoRegister]) 1 [] []
    100 101 5 20 7 (freshProfile 1 [65] 10 255) (by decide) (by decide)
    (by decide) (by decide) (by decide) (by decide) (by decide)

/-- C6: `register_agent` with a name of 1–64 bytes succeeds and initializes
the profile with the caller as authority, both counters 0 and score 10000;
a longer name fails with `NameTooLong`, an empty name with `NameEmpty`, and
a failed call leaves the ledger unchanged. -/
theorem c6_register_agent_spec (l : Ledger) (authority : Pubkey)
    (nameOk nameLong : Bytes) (now : Int) (bump : Nat)
    (hfresh : alookup l.profiles (.agentPda authority) = none)
    (hlen1 : 1 ≤ nameOk.length) (hlen2 : nameOk.length ≤ 64)
    (hlong : 64 < nameLong.length) :
    (∃ l', register_agent l authority nameOk now bump = .ok l' ∧
       alookup l'.profiles (.agentPda authority)
         = some (freshProfile authority nameOk now bump) ∧
       (freshProfile authority nameOk now bump).authority = authority ∧
       (freshProfile authority nameOk now bump).total_commitments = 0 ∧
       (freshProfile authority nameOk now bump).total_verified = 0 ∧
       (freshProfile authority nameOk now bump).accountability_score
         = 10000) ∧
    register_agent l authority nameLong now bump
      = .error (.program .NameTooLong) ∧
    register_agent l authority [] now bump
      = .error (.program .NameEmpty) ∧
    runOps l [.register authority nameLong now bump] = l ∧
    runOps l [.register authority [] now bump] = l := by
  have hne : nameOk ≠ [] := by
    intro hh
    rw [hh] at hlen1
    simp at hlen1
  have herr1 : register_agent l authority nameLong now bump
      = .error (.program .NameTooLong) := by
    simp [register_agent, hfresh, hlong]
  have herr2 : register_agent l authority [] now bump
      = .error (.program .NameEmpty) := by
    simp [register_agent, hfresh]
  refine ⟨⟨_, register_agent_succeeds l authority nameOk now bump hfresh
    hlen2 hne, ?_, rfl, rfl, rfl, rfl⟩, herr1, herr2, ?_, ?_⟩
  · rw [alookup_cons, if_pos rfl]
  · simp [runOps, stepOp, applyOp, herr1]
  · simp [runOps, stepOp, applyOp, herr2]

/-- Witness for C6: registering authority 3 with the two-byte name "AB"
succeeds; a 65-byte name and the empty name are rejected. -/
theorem c6_register_agent_spec_witness :
    (∃ l', register_agent initLedger 3 [65, 66] 5 9 = .ok l' ∧
       alookup l'.profiles (.agentPda 3)
         = some (freshProfile 3 [65, 66] 5 9) ∧
       (freshProfile 3 [65, 66] 5 9).authority = 3 ∧
       (freshProfile 3 [65, 66] 5 9).total_commitments = 0 ∧
       (freshProfile 3 [65, 66] 5 9).total_verified = 0 ∧
       (freshProfile 3 [65, 66] 5 9).accountability_score = 10000) ∧
    register_agent initLedger 3 (List.replicate 65 65) 5 9
      = .error (.program .NameTooLong) ∧
    register_agent initLedger 3 [] 5 9 = .error (.program .NameEmpty) ∧
    runOps initLedger [.register 3 (List.replicate 65 65) 5 9]
      = initLedger ∧
    runOps initLedger [.register 3 [] 5 9] = initLedger :=
  c6_register_agent_spec initLedger 3 [65, 66] (List.replicate 65 65) 5 9
    (by decide) (by decide) (by decide) (by decide)

/-- C5: a call that returns an error changes nothing (the transaction is
all-or-nothing), the counters of every reachable profile stay within the
`u64` range (no wraparound), and a commit on a profile whose commitment
counter sits at the `u64` maximum fails with `Overflow`. -/
theorem c5_errors_atomic (ops : List Op) (op : Op) (e : TxError)
    (A : Address) (p : AgentProfile)
    (herr : applyOp (runOps initLedger ops) op = .error e)
    (hp : alookup (runOps initLedger ops).profiles A = some p)
    (l6 : Ledger) (a6 : Pubkey) (hsh6 act6 : Bytes) (cv6 nn6 : Nat)
    (t6 : Int) (b6 : Nat) (p6 : AgentProfile)
    (hfresh6 : alookup l6.commitments
      (.commitmentPda (.agentPda a6) nn6) = none)
    (hp6 : alookup l6.profiles (.agentPda a6) = some p6)
    (hpauth6 : p6.authority = a6) (hact6 : act6.length ≤ 32)
    (hcv6 : cv6 ≤ 100) (hmax6 : p6.total_commitments = u64Max) :
    runOps (runOps initLedger ops) [op] = runOps initLedger ops ∧
    p.total_commitments ≤ u64Max ∧ p.total_verified ≤ u64Max ∧
    commit_reasoning l6 a6 hsh6 act6 cv6 nn6 t6 b6
      = .error (.program .Overflow) := by
  obtain ⟨hb1, hb2⟩ := boundInv_runOps ops initLedger boundInv_init A p hp
  refine ⟨?_, hb1, hb2, ?_⟩
  · simp [runOps, stepOp, herr]
  · simp [commit_reasoning, hfresh6, hp6, hpauth6, checkedAdd, hmax6,
      show ¬ 32 < act6.length from by omega,
      show ¬ 100 < cv6 from by omega,
      show ¬ (u64Max + 1 ≤ u64Max) from by omega]

/-- Witness for C5: a duplicate registration attempt fails and changes
nothing, the demo profile's counters are in range, and a commit on a
maxed-out profile overflows. -/
theorem c5_errors_atomic_witness :
    runOps (runOps initLedger demoOps) [.register 1 [66] 50 255]
      = runOps initLedger demoOps ∧
    demoProfile.total_commitments ≤ u64Max ∧
    demoProfile.total_verified ≤ u64Max ∧
    commit_reasoning demoMaxLedger 9 [] [] 0 1 0 0
      = .error (.program .Overflow) :=
  c5_errors_atomic demoOps (.register 1 [66] 50 255) .accountAlreadyInUse
    (.agentPda 1) demoProfile (by decide) (by decide) demoMaxLedger 9 []
    [] 0 1 0 0 demoMaxProfile (by decide) (by decide) (by decide)
    (by decide) (by decide) (by decide)

/-- C8: at most one profile can exist per authority and at most one
commitment per `(agent, nonce)`: duplicate creation fails with a
uniqueness conflict and leaves the existing record unchanged, and the
stored addresses of every reachable state are pairwise distinct. -/
theorem c8_address_uniqueness (l : Ledger) (authority : Pubkey)
    (name : Bytes) (now : Int) (bump : Nat) (p : AgentProfile)
    (hp : alookup l.profiles (.agentPda authority) = some p)
    (l2 : Ledger) (a2 : Pubkey) (hsh act : Bytes) (cv nn : Nat)
    (t2 : Int) (b2 : Nat) (c : ReasoningCommitment)
    (hc : alookup l2.commitments (.commitmentPda (.agentPda a2) nn)
      = some c)
    (ops : List Op) :
    register_agent l authority name now bump
      = .error .accountAlreadyInUse ∧
    commit_reasoning l2 a2 hsh act cv nn t2 b2
      = .error .accountAlreadyInUse ∧
    alookup (runOps l2 [.commit a2 hsh act cv nn t2 b2]).commitments
      (.commitmentPda (.agentPda a2) nn) = some c ∧
    ((runOps initLedger ops).profiles.map Prod.fst).Nodup ∧
    ((runOps initLedger ops).commitments.map Prod.fst).Nodup := by
  have herr2 : commit_reasoning l2 a2 hsh act cv nn t2 b2
      = .error .accountAlreadyInUse := by
    simp [commit_reasoning, hc]
  obtain ⟨hk1, hk2⟩ := keysInv_runOps ops initLedger keysInv_init
  refine ⟨by simp [register_agent, hp], herr2, ?_, hk1, hk2⟩
  simp [runOps, stepOp, applyOp, herr2, hc]

/-- Witness for C8: re-registering authority 1 and re-committing nonce 1
both fail with the uniqueness conflict; the demo trace's addresses are
pairwise distinct. -/
theorem c8_address_uniqueness_witness :
    register_agent demoLedger 1 [66] 50 1 = .error .accountAlreadyInUse ∧
    commit_reasoning demoLedger 1 [] [] 0 1 60 2
      = .error .accountAlreadyInUse ∧
    alookup (runOps demoLedger [.commit 1 [] [] 0 1 60 2]).commitments
      (.commitmentPda (.agentPda 1) 1) = some demoRevealed ∧
    ((runOps initLedger demoOps).profiles.map Prod.fst).Nodup ∧
    ((runOps initLedger demoOps).commitments.map Prod.fst).Nodup :=
  c8_address_uniqueness demoLedger 1 [66] 50 1 demoProfile (by decide)
    demoLedger 1 [] [] 0 1 60 2 demoRevealed (by decide) demoOps

/-- C10: in `reveal_reasoning` the URI length checks run before the
`revealed` check: with the account constraints satisfied and the
commitment already revealed, an empty URI yields `UriEmpty`, an over-long
URI yields `UriTooLong`, and `AlreadyRevealed` is returned only once the
URI passes both length checks. -/
theorem c10_uri_validation_precedes_revealed_check (l : Ledger)
    (authority : Pubkey) (caddr : Address) (uriOk uriLong : Bytes)
    (now : Int) (c : ReasoningCommitment) (p : AgentProfile)
    (hc : alookup l.commitments caddr = some c)
    (hrev : c.revealed = true)
    (hauth : c.authority = authority)
    (hagent : c.agent = .agentPda authority)
    (hp : alookup l.profiles (.agentPda authority) = some p)
    (hpauth : p.authority = authority)
    (hok1 : uriOk ≠ []) (hok2 : uriOk.length ≤ 256)
    (hlong : 256 < uriLong.length) :
    reveal_reasoning l authority caddr [] now
      = .error (.program .UriEmpty) ∧
    reveal_reasoning l authority caddr uriLong now
      = .error (.program .UriTooLong) ∧
    reveal_reasoning l authority caddr uriOk now
      = .error (.program .AlreadyRevealed) := by
  refine ⟨?_, ?_, reveal_on_revealed_already l authority caddr uriOk now
    c p hc hrev hauth hagent hp hpauth hok1 hok2⟩
  · simp [reveal_reasoning, hc, hauth, hagent, hp, hpauth]
  · simp [reveal_reasoning, hc, hauth, hagent, hp, hpauth, hlong]

/-- Witness for C10: on the already-revealed demo commitment, the empty
URI and a 257-byte URI fail with the URI errors, a valid URI with
`AlreadyRevealed`. -/
theorem c10_uri_validation_precedes_revealed_check_witness :
    reveal_reasoning demoLedger 1 demoCaddr [] 40
      = .error (.program .UriEmpty) ∧
    reveal_reasoning demoLedger 1 demoCaddr (List.replicate 257 105) 40
      = .error (.program .UriTooLong) ∧
    reveal_reasoning demoLedger 1 demoCaddr [105] 40
      = .error (.program .AlreadyRevealed) :=
  c10_uri_validation_precedes_revealed_check demoLedger 1 demoCaddr [105]
    (List.replicate 257 105) 40 demoRevealed demoProfile (by decide)
    (by decide) (by decide) (by decide) (by decide) (by decide)
    (by decide) (by decide) (by decide)

/-- C2 (amended): a commitment is created with `revealed = false`; a stored
commitment whose flag is set is never changed by any successful call; the
only change a successful call makes to a stored commitment is the
`false → true` transition performed by a `reveal_reasoning` of that very
commitment (which also stores the URI); a reveal call on an
already-revealed commitment always fails — with `AlreadyRevealed` when the
URI passes the length checks and the account constraints hold. -/
theorem c2_revealed_lifecycle
    (l1 l1' : Ledger) (a1 : Pubkey) (hash1 act1 : Bytes) (cv1 n1 : Nat)
    (t1 : Int) (b1 : Nat)
    (hcommit : applyOp l1 (.commit a1 hash1 act1 cv1 n1 t1 b1) = .ok l1')
    (m2 m2' : Ledger) (op2 : Op) (caddr2 : Address)
    (c2 : ReasoningCommitment)
    (hok2 : applyOp m2 op2 = .ok m2')
    (hc2 : alookup m2.commitments caddr2 = some c2)
    (hrev2 : c2.revealed = true)
    (m3 m3' : Ledger) (op3 : Op) (caddr3 : Address)
    (c3 c3' : ReasoningCommitment)
    (hok3 : applyOp m3 op3 = .ok m3')
    (hc3 : alookup m3.commitments caddr3 = some c3)
    (hc3' : alookup m3'.commitments caddr3 = some c3')
    (hne3 : c3' ≠ c3)
    (m4 : Ledger) (a4 : Pubkey) (caddr4 : Address) (u4 : Bytes) (t4 : Int)
    (c4 : ReasoningCommitment) (p4 : AgentProfile)
    (hc4 : alookup m4.commitments caddr4 = some c4)
    (hrev4 : c4.revealed = true)
    (hauth4 : c4.authority = a4) (hagent4 : c4.agent = .agentPda a4)
    (hp4 : alookup m4.profiles (.agentPda a4) = some p4)
    (hpauth4 : p4.authority = a4)
    (hu1 : u4 ≠ []) (hu2 : u4.length ≤ 256)
    (m5 : Ledger) (a5 : Pubkey) (caddr5 : Address) (u5 : Bytes) (t5 : Int)
    (c5 : ReasoningCommitment)
    (hc5 : alookup m5.commitments caddr5 = some c5)
    (hrev5 : c5.revealed = true) :
    (∃ c, alookup l1'.commitments (.commitmentPda (.agentPda a1) n1)
        = some c ∧ c.revealed = false) ∧
    alookup m2'.commitments caddr2 = some c2 ∧
    (c3.revealed = false ∧ c3'.revealed = true ∧
      ∃ a uri t, op3 = .reveal a caddr3 uri t ∧
        c3' = { c3 with revealed := true, reasoning_uri := uri }) ∧
    reveal_reasoning m4 a4 caddr4 u4 t4
      = .error (.program .AlreadyRevealed) ∧
    (∃ e, reveal_reasoning m5 a5 caddr5 u5 t5 = .error e) := by
  refine ⟨?_,
    revealed_commitment_frozen m2 m2' op2 caddr2 c2 hok2 hc2 hrev2,
    commitment_change_is_reveal m3 m3' op3 caddr3 c3 c3' hok3 hc3 hc3'
      hne3,
    reveal_on_revealed_already m4 a4 caddr4 u4 t4 c4 p4 hc4 hrev4 hauth4
      hagent4 hp4 hpauth4 hu1 hu2,
    reveal_on_revealed_errors m5 a5 caddr5 u5 t5 c5 hc5 hrev5⟩
  obtain ⟨profile, hfresh, -, -, -, -, -, hl'⟩ :=
    commit_reasoning_ok l1 a1 hash1 act1 cv1 n1 t1 b1 l1' hcommit
  subst hl'
  refine ⟨freshCommitment a1 hash1 act1 cv1 n1 t1 b1, ?_, rfl⟩
  rw [alookup_cons, if_pos rfl]

/-- Witness for C2 on the demo trace: the fresh commitment is unrevealed, a
later registration leaves the revealed commitment untouched, the one change
to the commitment was the reveal, and reveal attempts on the revealed
commitment fail. -/
theorem c2_revealed_lifecycle_witness :
    (∃ c, alookup demoMid.commitments (.commitmentPda (.agentPda 1) 1)
        = some c ∧ c.revealed = false) ∧
    alookup (runOps demoLedger [.register 2 [66] 40 253]).commitments
      demoCaddr = some demoRevealed ∧
    (demoUnrevealed.revealed = false ∧ demoRevealed.revealed = true ∧
      ∃ a uri t, demoReveal = .reveal a demoCaddr uri t ∧
        demoRevealed = { demoUnrevealed with
                         revealed := true
                         reasoning_uri := uri }) ∧
    reveal_reasoning demoLedger 1 demoCaddr [105] 50
      = .error (.program .AlreadyRevealed) ∧
    (∃ e, reveal_reasoning demoLedger 2 demoCaddr [] 0 = .error e) :=
  c2_revealed_lifecycle
    (runOps initLedger [demoRegister]) demoMid 1 (List.replicate 32 7)
    [116] 87 1 20 254 (by decide)
    demoLedger (runOps demoLedger [.register 2 [66] 40 253])
    (.register 2 [66] 40 253) demoCaddr demoRevealed (by decide)
    (by decide) (by decide)
    demoMid demoLedger demoReveal demoCaddr demoUnrevealed demoRevealed
    (by decide) (by decide) (by decide) (by decide)
    demoLedger 1 demoCaddr [105] 50 demoRevealed demoProfile (by decide)
    (by decide) (by decide) (by decide) (by decide) (by decide)
    (by decide) (by decide)
    demoLedger 2 demoCaddr [] 0 demoRevealed (by decide) (by decide)

/-- C2 counterexample: a reveal call on an already-revealed commitment with
an empty URI fails with `UriEmpty`, not `AlreadyRevealed`, so not every
reveal call on a revealed commitment fails with `AlreadyRevealed`. -/
theorem c2_revealed_lifecycle_counterexample :
    alookup demoLedger.commitments demoCaddr = some demoRevealed ∧
    demoRevealed.revealed = true ∧
    reveal_reasoning demoLedger 1 demoCaddr [] 40
      = .error (.program .UriEmpty) ∧
    reveal_reasoning demoLedger 1 demoCaddr [] 40
      ≠ .error (.program .AlreadyRevealed) := by
  decide

/-- C7: a successful reveal changes only the commitment's `revealed` and
`reasoning_uri` fields and the profile's `total_verified`; every other
field of both records, and every other stored record, is unchanged — and
no successful call ever changes a stored profile's
`accountability_score`. -/
theorem c7_reveal_frame (l l' : Ledger) (authority : Pubkey)
    (caddr : Address) (uri : Bytes) (now : Int)
    (c : ReasoningCommitment) (p : AgentProfile)
    (hok : applyOp l (.reveal authority caddr uri now) = .ok l')
    (hc : alookup l.commitments caddr = some c)
    (hp : alookup l.profiles (.agentPda authority) = some p)
    (caddrO : Address) (hO : caddrO ≠ caddr)
    (addrP : Address) (hP : addrP ≠ .agentPda authority)
    (m m' : Ledger) (op2 : Op) (B : Address) (q q' : AgentProfile)
    (hop2 : applyOp m op2 = .ok m')
    (hq : alookup m.profiles B = some q)
    (hq' : alookup m'.profiles B = some q') :
    (∃ c', alookup l'.commitments caddr = some c' ∧
       c'.commitment_hash = c.commitment_hash ∧
       c'.action_type = c.action_type ∧
       c'.confidence = c.confidence ∧
       c'.timestamp = c.timestamp ∧
       c'.agent = c.agent ∧
       c'.authority = c.authority ∧
       c'.nonce = c.nonce ∧
       c'.bump = c.bump ∧
       c'.revealed = true ∧
       c'.reasoning_uri = uri) ∧
    (∃ p', alookup l'.profiles (.agentPda authority) = some p' ∧
       p'.authority = p.authority ∧
       p'.name = p.name ∧
       p'.total_commitments = p.total_commitments ∧
       p'.accountability_score = p.accountability_score ∧
       p'.created_at = p.created_at ∧
       p'.bump = p.bump ∧
       p'.total_verified = p.total_verified + 1) ∧
    alookup l'.commitments caddrO = alookup l.commitments caddrO ∧
    alookup l'.profiles addrP = alookup l.profiles addrP ∧
    q'.accountability_score = q.accountability_score := by
  obtain ⟨c2, p2, hc2, -, -, hp2, -, -, -, hrev2, -, hl'⟩ :=
    reveal_reasoning_ok l authority caddr uri now l' hok
  have hcc : c2 = c := by
    rw [hc] at hc2
    injection hc2 with h
    exact h.symm
  have hpp : p2 = p := by
    rw [hp] at hp2
    injection hp2 with h
    exact h.symm
  subst hcc
  subst hpp
  subst hl'
  refine ⟨⟨{ c2 with revealed := true, reasoning_uri := uri },
      alookup_aupd_eq _ _ _ c2 hc,
      rfl, rfl, rfl, rfl, rfl, rfl, rfl, rfl, rfl, rfl⟩,
    ⟨{ p2 with total_verified := p2.total_verified + 1 },
      alookup_aupd_eq _ _ _ p2 hp,
      rfl, rfl, rfl, rfl, rfl, rfl, rfl⟩,
    alookup_aupd_ne _ _ _ _ (Ne.symm hO),
    alookup_aupd_ne _ _ _ _ (Ne.symm hP),
    score_preserved m m' op2 B q q' hop2 hq hq'⟩

/-- Witness for C7: the demo reveal changes exactly the expected fields,
leaves other addresses alone, and the demo commit preserves the score. -/
theorem c7_reveal_frame_witness :
    (∃ c', alookup demoLedger.commitments demoCaddr = some c' ∧
       c'.commitment_hash = demoUnrevealed.commitment_hash ∧
       c'.action_type = demoUnrevealed.action_type ∧
       c'.confidence = demoUnrevealed.confidence ∧
       c'.timestamp = demoUnrevealed.timestamp ∧
       c'.agent = demoUnrevealed.agent ∧
       c'.authority = demoUnrevealed.authority ∧
       c'.nonce = demoUnrevealed.nonce ∧
       c'.bump = demoUnrevealed.bump ∧
       c'.revealed = true ∧
       c'.reasoning_uri = [105, 112]) ∧
    (∃ p', alookup demoLedger.profiles (.agentPda 1) = some p' ∧
       p'.authority = demoProfileMid.authority ∧
       p'.name = demoProfileMid.name ∧
       p'.total_commitments = demoProfileMid.total_commitments ∧
       p'.accountability_score = demoProfileMid.accountability_score ∧
       p'.created_at = demoProfileMid.created_at ∧
       p'.bump = demoProfileMid.bump ∧
       p'.total_verified = demoProfileMid.total_verified + 1) ∧
    alookup demoLedger.commitments (.commitmentPda (.agentPda 1) 2)
      = alookup demoMid.commitments (.commitmentPda (.agentPda 1) 2) ∧
    alookup demoLedger.profiles (.agentPda 2)
      = alookup demoMid.profiles (.agentPda 2) ∧
    demoProfileMid.accountability_score
      = (freshProfile 1 [65] 10 255).accountability_score :=
  c7_reveal_frame demoMid demoLedger 1 demoCaddr [105, 112] 30
    demoUnrevealed demoProfileMid (by decide) (by decide) (by decide)
    (.commitmentPda (.agentPda 1) 2) (by decide) (.agentPda 2) (by decide)
    (runOps initLedger [demoRegister]) demoMid demoCommit (.agentPda 1)
    (freshProfile 1 [65] 10 255) demoProfileMid (by decide) (by decide)
    (by decide)

/-- C9: along any trace whose clock readings are monotone, the creation
timestamp stored in a commitment is at most the timestamp carried by any
`ReasoningRevealed` event for that commitment. -/
theorem c9_commit_timestamp_le_reveal_event (ops : List Op)
    (hmono : List.Pairwise (fun o1 o2 => opNow o1 ≤ opNow o2) ops)
    (ag caddr : Address) (uri : Bytes) (tr : Int)
    (c : ReasoningCommitment)
    (hev : AxiomEvent.reasoningRevealed ag caddr uri tr
      ∈ (runOps initLedger ops).events)
    (hc : alookup (runOps initLedger ops).commitments caddr = some c) :
    c.timestamp ≤ tr := by
  cases ops with
  | nil => simp [runOps, initLedger] at hev
  | cons op rest =>
    obtain ⟨hhead, htail⟩ := List.pairwise_cons.mp hmono
    have hlb : ∀ op' ∈ op :: rest, opNow op ≤ opNow op' := by
      intro op' hop'
      rcases List.mem_cons.mp hop' with h | h
      · subst h
        exact le_refl _
      · exact hhead op' h
    obtain ⟨t', hinv⟩ := clockInv_runOps (op :: rest) initLedger
      (opNow op) (clockInv_init _) hlb hmono
    exact hinv.2.1 ag caddr uri tr hev c hc

/-- Witness for C9: on the demo trace (clock readings 10, 20, 30), the
commitment's creation time 20 precedes the reveal event's time 30. -/
theorem c9_commit_timestamp_le_reveal_event_witness :
    List.Pairwise (fun o1 o2 => opNow o1 ≤ opNow o2) demoOps ∧
    demoRevealed.timestamp ≤ 30 :=
  ⟨by decide,
   c9_commit_timestamp_le_reveal_event demoOps (by decide) (.agentPda 1)
     demoCaddr [105, 112] 30 demoRevealed (by decide) (by decide)⟩

end Solprism
